import Mathlib

/-!
Verification of the textspace-mud core against its specification.

The definitions below are a shallow embedding of the Python sources:
`server_web_only.py` (command resolution, item transfer, containers,
movement) and `script_engine.py` (the bot/item script interpreter).
Dictionaries are modelled as association lists (first occurrence wins,
matching Python's unique-key dicts), mutation as pure state transformers,
and Python string operations as structurally recursive functions on
`List Char` so that every definition evaluates by kernel reduction.
-/

namespace TextSpace

/-! ### String helpers (Python `str` operations, kernel-computable) -/

/-- ASCII lowercase of a character, as Python `str.lower` does for ASCII. -/
def charLower (c : Char) : Char :=
  if 'A' ≤ c ∧ c ≤ 'Z' then Char.ofNat (c.toNat + 32) else c

/-- Python `s.lower()` (ASCII fragment). -/
def strLower (s : String) : String := ⟨s.data.map charLower⟩

/-- `pre` is a prefix of `l` (character lists). -/
def prefChars : List Char → List Char → Bool
  | [], _ => true
  | _ :: _, [] => false
  | p :: ps, c :: cs => p == c && prefChars ps cs

/-- Python `s.startswith(pre)`. -/
def strStarts (s pre : String) : Bool := prefChars pre.data s.data

/-- Whitespace characters stripped by Python `str.strip`. -/
def isSpaceCh (c : Char) : Bool :=
  c == ' ' || c == '\t' || c == '\n' || c == '\r'

/-- Python `s.strip()`. -/
def strStrip (s : String) : String :=
  ⟨((s.data.dropWhile isSpaceCh).reverse.dropWhile isSpaceCh).reverse⟩

/-- Split a character list at the first occurrence of pattern `pat`,
returning the part before and the part after. -/
def findSub (pat : List Char) : List Char → Option (List Char × List Char)
  | [] => if pat.isEmpty then some ([], []) else none
  | c :: cs =>
    if prefChars pat (c :: cs) then some ([], (c :: cs).drop pat.length)
    else match findSub pat cs with
      | some (pre, post) => some (c :: pre, post)
      | none => none

/-- Python `s.split(pat, 1)` when `pat` occurs: the part before the first
occurrence and everything after it. `none` when `pat` does not occur. -/
def splitFirst (s pat : String) : Option (String × String) :=
  match findSub pat.data s.data with
  | some (pre, post) => some (⟨pre⟩, ⟨post⟩)
  | none => none

/-- Python `pat in s` (substring containment). -/
def containsSub (s pat : String) : Bool := (findSub pat.data s.data).isSome

/-- Split a character list on every occurrence of a single character. -/
def splitChar (c : Char) : List Char → List (List Char)
  | [] => [[]]
  | x :: xs =>
    let rest := splitChar c xs
    if x == c then [] :: rest
    else match rest with
      | [] => [[x]]
      | r :: rs => (x :: r) :: rs

/-- Python `s.split(c)` for a one-character separator. -/
def strSplitChar (s : String) (c : Char) : List String :=
  (splitChar c s.data).map (fun l => ⟨l⟩)

/-- Python `sep.join(parts)`. -/
def joinSep (sep : String) : List String → String
  | [] => ""
  | [x] => x
  | x :: xs => x ++ sep ++ joinSep sep xs

/-! ### Dictionaries as association lists -/

/-- Python `d.get(k)` / `k in d`: value at the first matching key. -/
def lookupD {α : Type} (d : List (String × α)) (k : String) : Option α :=
  match d with
  | [] => none
  | e :: rest => if e.1 == k then some e.2 else lookupD rest k

/-- In-place mutation of the value stored at key `k` (first occurrence);
no-op when the key is absent.  Models Python's mutation of the object
held in a dict. -/
def updateD {α : Type} (d : List (String × α)) (k : String) (f : α → α) :
    List (String × α) :=
  match d with
  | [] => []
  | e :: rest => if e.1 == k then (e.1, f e.2) :: rest else e :: updateD rest k f

/-- Python `d[k] = v`: replace the first binding or append a new one. -/
def setD {α : Type} (d : List (String × α)) (k : String) (v : α) :
    List (String × α) :=
  match d with
  | [] => [(k, v)]
  | e :: rest => if e.1 == k then (e.1, v) :: rest else e :: setD rest k v

/-! ### World model (`server_web_only.py` dataclasses) -/

/-- `Item` dataclass.  Python sets `is_open` dynamically via `setattr`; all
guards in the source read it as `hasattr(item, 'is_open') and item.is_open`,
so a missing attribute is indistinguishable from `False` and is modelled as
the default `false`. -/
structure Item where
  id : String
  name : String
  description : String
  tags : List String := []
  is_container : Bool := false
  contents : List String := []
  is_open : Bool := false
deriving DecidableEq, Repr

/-- `Room` dataclass (exits is a dict direction → room id; `users` is a set,
kept here as a list in iteration order). -/
structure Room where
  id : String
  exits : List (String × String) := []
  items : List String := []
  users : List String := []
deriving DecidableEq, Repr

/-- `WebUser` dataclass fields used by the handlers. -/
structure WebUser where
  name : String
  room_id : String
  inventory : List String := []
  admin : Bool := false
deriving DecidableEq, Repr

/-- `Bot` dataclass fields used by the handlers and the script engine. -/
structure Bot where
  name : String
  room_id : String
  description : String := ""
  inventory : List String := []
  visible : Bool := true
deriving DecidableEq, Repr

/-- A telnet `User` (server.py) as used by the script engine's
`give`/`take` (inventory) and by the stream entry point's `move_user`
(current room). -/
structure TUser where
  room_id : String := ""
  inventory : List String := []
deriving DecidableEq, Repr

/-- The mutable server state shared by all handlers. -/
structure ServerState where
  items : List (String × Item) := []
  rooms : List (String × Room) := []
  web_users : List (String × WebUser) := []
  users : List (String × TUser) := []
  bots : List (String × Bot) := []
deriving DecidableEq, Repr

/-! ### Command resolution (`server_web_only.py`, `resolve_command`) -/

/-- `basic_commands` list, verbatim from `resolve_command`. -/
def basic_commands : List String :=
  ["help", "version", "whoami", "look", "who", "inventory", "say", "whisper",
   "get", "take", "drop", "examine", "exam", "use", "go", "move",
   "north", "south", "east", "west"]

/-- `admin_commands` list, verbatim from `resolve_command`. -/
def admin_commands : List String :=
  ["teleport", "broadcast", "kick", "switchuser", "script"]

/-- The fixed single-character alias table of `resolve_command`. -/
def cmd_aliases : List (String × String) :=
  [("n", "north"), ("s", "south"), ("e", "east"), ("w", "west"),
   ("l", "look"), ("g", "go"), ("i", "inventory"), ("h", "help"),
   ("v", "version")]

/-- The effective candidate list: basic commands plus, for admins, the
admin commands (`all_commands` in the source). -/
def all_commands (is_admin : Bool) : List String :=
  basic_commands ++ (if is_admin then admin_commands else [])

/-- `resolve_command(cmd, is_admin)`: single-character alias first, then
exact match, then prefix matching with an `AMBIGUOUS:` result on several
matches and the original token on none. -/
def resolve_command (cmd : String) (is_admin : Bool) : String :=
  match if cmd.data.length == 1 then lookupD cmd_aliases cmd else none with
  | some full => full
  | none =>
    let all := all_commands is_admin
    if all.contains cmd then cmd
    else match all.filter (fun c => strStarts c cmd) with
      | [m] => m
      | [] => cmd
      | ms => "AMBIGUOUS:" ++ joinSep "," ms

/-- Modelled from the spec wording of claim C2 (for comparison with
`resolve_command`): exact match, else unique-prefix match, else ambiguous
with the full candidate list, else the original token — with no
single-character alias step. -/
def resolveSpecC2 (cmd : String) (is_admin : Bool) : String :=
  let all := all_commands is_admin
  if all.contains cmd then cmd
  else match all.filter (fun c => strStarts c cmd) with
    | [m] => m
    | [] => cmd
    | ms => "AMBIGUOUS:" ++ joinSep "," ms

/-! ### Name lookup helpers shared by the item handlers

Each handler in the source scans a list of item ids, skips ids missing from
`self.items`, and compares names case-insensitively. -/

/-- First id in `ids` bound in `items` whose name lowercases to the
lowercase of `target`.  Returns the id with its item. -/
def findItemIn (items : List (String × Item)) (ids : List String)
    (target : String) : Option (String × Item) :=
  match ids with
  | [] => none
  | i :: rest =>
    match lookupD items i with
    | some it =>
      if strLower it.name == strLower target then some (i, it)
      else findItemIn items rest target
    | none => findItemIn items rest target

/-- The open-container scan at the top of `handle_get_item`: the first room
item that is an open container holding a name-matching content item.
Returns (container id, container, content id, content item). -/
def findContainerTake (items : List (String × Item)) (ids : List String)
    (target : String) : Option (String × Item × String × Item) :=
  match ids with
  | [] => none
  | i :: rest =>
    match lookupD items i with
    | some c =>
      if c.is_container && c.is_open then
        match findItemIn items c.contents target with
        | some (cid, cit) => some (i, c, cid, cit)
        | none => findContainerTake items rest target
      else findContainerTake items rest target
    | none => findContainerTake items rest target

/-- The target-user scan of `handle_give_to_target`: the first occupant of
the room other than the giver whose name matches case-insensitively. -/
def findTargetUser (roomUsers : List String) (giver target : String) :
    Option String :=
  match roomUsers with
  | [] => none
  | n :: rest =>
    if n != giver && strLower n == strLower target then some n
    else findTargetUser rest giver target

/-- The bot scan of `handle_give_to_target`: the first bot in the giver's
room with a matching name that is visible (or the giver is an admin). -/
def findGiveBot (bots : List (String × Bot)) (room_id target : String)
    (admin : Bool) : Option Bot :=
  match bots with
  | [] => none
  | (_, b) :: rest =>
    if b.room_id == room_id && strLower b.name == strLower target
        && (b.visible || admin) then some b
    else findGiveBot rest room_id target admin

/-! ### Item-transfer handlers (`server_web_only.py`) -/

/-- `handle_get_item(web_user, item_name)`: open containers in the room are
searched first (no immovability check there); then direct room items, where
an `immovable` tag refuses the transfer. -/
def handle_get_item (s : ServerState) (uname item_name : String) :
    String × ServerState :=
  match lookupD s.web_users uname with
  | none => ("", s)
  | some u =>
    match lookupD s.rooms u.room_id with
    | none => ("You are in an unknown location.", s)
    | some room =>
      match findContainerTake s.items room.items item_name with
      | some (container_id, c, content_id, cit) =>
        (s!"You take {cit.name} from {c.name}.",
          { s with
            items := updateD s.items container_id
              (fun it => { it with contents := it.contents.erase content_id }),
            web_users := updateD s.web_users uname
              (fun u => { u with inventory := u.inventory ++ [content_id] }) })
      | none =>
        match findItemIn s.items room.items item_name with
        | none => (s!"There is no '{item_name}' here.", s)
        | some (item_id, it) =>
          if it.tags.contains "immovable" then
            (s!"The {it.name} is too heavy to move.", s)
          else
            (s!"You pick up {it.name}.",
              { s with
                rooms := updateD s.rooms u.room_id
                  (fun r => { r with items := r.items.erase item_id }),
                web_users := updateD s.web_users uname
                  (fun u => { u with inventory := u.inventory ++ [item_id] }) })

/-- `handle_drop_item(web_user, item_name)`.  Note the source removes the
item from the inventory before looking the room up; with an unknown room
the id is appended nowhere. -/
def handle_drop_item (s : ServerState) (uname item_name : String) :
    String × ServerState :=
  match lookupD s.web_users uname with
  | none => ("", s)
  | some u =>
    match findItemIn s.items u.inventory item_name with
    | none => (s!"You don't have '{item_name}'.", s)
    | some (item_id, it) =>
      let s1 := { s with
        web_users := updateD s.web_users uname
          (fun u => { u with inventory := u.inventory.erase item_id }) }
      let s2 :=
        match lookupD s.rooms u.room_id with
        | some _ => { s1 with
            rooms := updateD s1.rooms u.room_id
              (fun r => { r with items := r.items ++ [item_id] }) }
        | none => s1
      (s!"You drop {it.name}.", s2)

/-- `handle_put_in_container(web_user, item_name, container_name)`. -/
def handle_put_in_container (s : ServerState)
    (uname item_name container_name : String) : String × ServerState :=
  match lookupD s.web_users uname with
  | none => ("", s)
  | some u =>
    match findItemIn s.items u.inventory item_name with
    | none => (s!"You don't have '{item_name}'.", s)
    | some (item_id, it) =>
      match lookupD s.rooms u.room_id with
      | none => ("You are in an unknown location.", s)
      | some room =>
        match findItemIn s.items room.items container_name with
        | none => (s!"You don't see '{container_name}' here.", s)
        | some (container_id, c) =>
          if !c.is_container then
            (s!"You can't put things in {c.name}.", s)
          else if !c.is_open then
            (s!"The {c.name} is closed.", s)
          else
            (s!"You put {it.name} in {c.name}.",
              { s with
                web_users := updateD s.web_users uname
                  (fun u => { u with inventory := u.inventory.erase item_id }),
                items := updateD s.items container_id
                  (fun ci => { ci with contents := ci.contents ++ [item_id] }) })

/-- `handle_give_to_target(web_user, item_name, target_name)`. -/
def handle_give_to_target (s : ServerState)
    (uname item_name target_name : String) : String × ServerState :=
  match lookupD s.web_users uname with
  | none => ("", s)
  | some u =>
    match findItemIn s.items u.inventory item_name with
    | none => (s!"You don't have '{item_name}'.", s)
    | some (item_id, it) =>
      match lookupD s.rooms u.room_id with
      | none => ("You are in an unknown location.", s)
      | some room =>
        match findTargetUser room.users uname target_name with
        | some user_name =>
          match lookupD s.web_users user_name with
          | some _ =>
            (s!"You give {it.name} to {user_name}.",
              { s with
                web_users := updateD
                  (updateD s.web_users uname
                    (fun g => { g with inventory := g.inventory.erase item_id }))
                  user_name
                  (fun t => { t with inventory := t.inventory ++ [item_id] }) })
          | none => (s!"{user_name} is not available to receive items.", s)
        | none =>
          match findGiveBot s.bots u.room_id target_name u.admin with
          | some b =>
            (s!"You offer {it.name} to {b.name}, but they politely decline.", s)
          | none => (s!"You don't see '{target_name}' here.", s)

/-- `handle_open_item(web_user, item_name)`: sets the open flag and
enumerates the contents (or reports emptiness). -/
def handle_open_item (s : ServerState) (uname item_name : String) :
    String × ServerState :=
  match lookupD s.web_users uname with
  | none => ("", s)
  | some u =>
    match lookupD s.rooms u.room_id with
    | none => ("You are in an unknown location.", s)
    | some room =>
      match findItemIn s.items room.items item_name with
      | none => (s!"You don't see '{item_name}' here.", s)
      | some (item_id, it) =>
        if !it.is_container then (s!"You can't open {it.name}.", s)
        else if it.is_open then (s!"The {it.name} is already open.", s)
        else
          let s' := { s with
            items := updateD s.items item_id
              (fun i => { i with is_open := true }) }
          if !it.contents.isEmpty then
            let names := it.contents.filterMap
              (fun cid => (lookupD s.items cid).map (·.name))
            (s!"You open {it.name}. Inside you see: " ++ joinSep ", " names
              ++ ".", s')
          else (s!"You open {it.name}. It is empty.", s')

/-- `handle_close_item(web_user, item_name)`. -/
def handle_close_item (s : ServerState) (uname item_name : String) :
    String × ServerState :=
  match lookupD s.web_users uname with
  | none => ("", s)
  | some u =>
    match lookupD s.rooms u.room_id with
    | none => ("You are in an unknown location.", s)
    | some room =>
      match findItemIn s.items room.items item_name with
      | none => (s!"You don't see '{item_name}' here.", s)
      | some (item_id, it) =>
        if !it.is_container then (s!"You can't close {it.name}.", s)
        else if !it.is_open then (s!"The {it.name} is already closed.", s)
        else
          (s!"You close {it.name}.",
            { s with
              items := updateD s.items item_id
                (fun i => { i with is_open := false }) })

/-- `handle_examine_target(web_user, target_name)`: inventory first, then
direct room items, then contents of open containers, then other users,
then bots; every item hit returns only `name: description`. -/
def handle_examine_target (s : ServerState) (uname target_name : String) :
    String :=
  match lookupD s.web_users uname with
  | none => ""
  | some u =>
    match findItemIn s.items u.inventory target_name with
    | some (_, it) => s!"{it.name}: {it.description}"
    | none =>
      match lookupD s.rooms u.room_id with
      | none => s!"You don't see '{target_name}' here."
      | some room =>
        match findItemIn s.items room.items target_name with
        | some (_, it) => s!"{it.name}: {it.description}"
        | none =>
          match findContainerTake s.items room.items target_name with
          | some (_, _, _, cit) => s!"{cit.name}: {cit.description}"
          | none =>
            match findTargetUser room.users uname target_name with
            | some user_name =>
              match lookupD s.web_users user_name with
              | some tu =>
                let admin_status := if tu.admin then " (admin)" else ""
                s!"{user_name}{admin_status}: Another player exploring the space."
              | none => s!"{user_name}: Another visitor to this place."
            | none =>
              match findGiveBot s.bots u.room_id target_name u.admin with
              | some b =>
                let note := if !b.visible then " (invisible)" else ""
                s!"{b.name}{note}: {b.description}"
              | none => s!"You don't see '{target_name}' here."

/-! ### `put`/`give` complex grammar (`parse_complex_command`) -/

/-- `parse_complex_command(args)`: `" in "` separator first, then `" to "`,
then the single-slot `put_simple` form, then `unknown`. -/
def parse_complex_command (args : List String) : String × List String :=
  let args_str := joinSep " " args
  let inCase :=
    match splitFirst args_str " in " with
    | some (p0, p1) =>
      if strStrip p0 != "" && strStrip p1 != "" then
        some ("put_in", [strStrip p0, strStrip p1])
      else none
    | none => none
  match inCase with
  | some r => r
  | none =>
    let toCase :=
      match splitFirst args_str " to " with
      | some (p0, p1) =>
        if strStrip p0 != "" && strStrip p1 != "" then
          some ("give_to", [strStrip p0, strStrip p1])
        else none
      | none => none
    match toCase with
    | some r => r
    | none =>
      if !args.isEmpty then ("put_simple", [strStrip args_str])
      else ("unknown", args)

/-- `handle_put_cmd(web_user, args)`: `put_simple` delegates to
`handle_drop_item`, `put_in` to `handle_put_in_container`, anything else
is a usage message. -/
def handle_put_cmd (s : ServerState) (uname : String) (args : List String) :
    String × ServerState :=
  let (command_type, parsed_args) := parse_complex_command args
  if command_type == "put_simple" then
    handle_drop_item s uname (parsed_args.headD "")
  else if command_type == "put_in" then
    handle_put_in_container s uname (parsed_args.headD "")
      ((parsed_args.drop 1).headD "")
  else ("Usage: put <item> [in <container>]", s)

/-- `handle_give_cmd(web_user, args)`. -/
def handle_give_cmd (s : ServerState) (uname : String) (args : List String) :
    String × ServerState :=
  let (command_type, parsed_args) := parse_complex_command args
  if command_type == "give_to" then
    handle_give_to_target s uname (parsed_args.headD "")
      ((parsed_args.drop 1).headD "")
  else ("Usage: give <item> to <target>", s)

/-! ### Movement (`server_web_only.py`, `move_user`) -/

/-- The observable steps `move_user` performs, in execution order:
occupant-set removal, room assignment, occupant-set insertion, the
leave-room notification, the enter-room notification. -/
inductive MoveEvt where
  | removeOcc (room user : String)
  | assignRoom (user room : String)
  | addOcc (room user : String)
  | leaveMsg (room user : String)
  | enterMsg (room user : String)
deriving DecidableEq, Repr

/-- The exit scan of `move_user`: Python breaks at an exact match and
collects the prefix matches seen before it. -/
def scanExits (exits : List (String × String)) (direction : String) :
    Option String × List String :=
  match exits with
  | [] => (none, [])
  | (en, _) :: rest =>
    if en == direction then (some en, [])
    else if strStarts en direction then
      let (e, ms) := scanExits rest direction
      (e, en :: ms)
    else scanExits rest direction

/-- Python `set.add` on the occupant list. -/
def addUser (l : List String) (n : String) : List String :=
  if l.contains n then l else l ++ [n]

/-- `move_user(web_user, direction)`.  The returned message is `some` of
the error text on failure and `none` on success (the source then builds a
room description, which no claim concerns).  The third component is the
ordered trace of coordinator steps. -/
def move_user (s : ServerState) (uname direction : String) :
    Option String × ServerState × List MoveEvt :=
  match lookupD s.web_users uname with
  | none => (some "", s, [])
  | some u =>
    match lookupD s.rooms u.room_id with
    | none => (some "You are in an unknown location.", s, [])
    | some current_room =>
      let (exact_match, matching_exits) := scanExits current_room.exits direction
      let target? : Option String :=
        match exact_match with
        | some e => some e
        | none =>
          match matching_exits with
          | [m] => some m
          | _ => none
      match target? with
      | none =>
        match matching_exits with
        | [] => (some s!"You can't go {direction} from here.", s, [])
        | ms =>
          (some (s!"Ambiguous direction '{direction}'. Options: "
            ++ joinSep ", " ms), s, [])
      | some target_exit =>
        match lookupD current_room.exits target_exit with
        | none => (some s!"You can't go {direction} from here.", s, [])
        | some target_room_id =>
          if (lookupD s.rooms target_room_id).isNone then
            (some s!"The {target_exit} exit leads nowhere.", s, [])
          else
            let s1 := { s with
              rooms := updateD s.rooms u.room_id
                (fun r => { r with users := r.users.erase uname }) }
            let s2 := { s1 with
              web_users := updateD s1.web_users uname
                (fun w => { w with room_id := target_room_id }) }
            let s3 := { s2 with
              rooms := updateD s2.rooms target_room_id
                (fun r => { r with users := addUser r.users uname }) }
            (none, s3,
              [MoveEvt.removeOcc current_room.id uname,
               MoveEvt.assignRoom uname target_room_id,
               MoveEvt.addOcc target_room_id uname,
               MoveEvt.leaveMsg current_room.id uname,
               MoveEvt.enterMsg target_room_id uname])

/-- `move_user(user, direction)` of the stream (telnet) entry point,
`server.py`: exact exit-name match only, and the leave-room event fires
*before* any occupant mutation (the enter-room event fires last, for the
already-reassigned room).  The returned message is `some` of the error
text on failure and `none` on success (the source then shows the room);
the third component is the ordered trace of coordinator steps. -/
def move_user_stream (s : ServerState) (uname direction : String) :
    Option String × ServerState × List MoveEvt :=
  match lookupD s.users uname with
  | none => (some "", s, [])
  | some user =>
    match lookupD s.rooms user.room_id with
    | none => (some "You are in an unknown location.", s, [])
    | some current_room =>
      match lookupD current_room.exits direction with
      | none => (some s!"You can't go {direction} from here.", s, [])
      | some target_room_id =>
        if (lookupD s.rooms target_room_id).isNone then
          (some s!"The {direction} exit leads nowhere.", s, [])
        else
          let s1 := { s with
            rooms := updateD s.rooms user.room_id
              (fun r => { r with users := r.users.erase uname }) }
          let s2 := { s1 with
            users := updateD s1.users uname
              (fun u => { u with room_id := target_room_id }) }
          let s3 := { s2 with
            rooms := updateD s2.rooms target_room_id
              (fun r => { r with users := addUser r.users uname }) }
          (none, s3,
            [MoveEvt.leaveMsg user.room_id uname,
             MoveEvt.removeOcc user.room_id uname,
             MoveEvt.assignRoom uname target_room_id,
             MoveEvt.addOcc target_room_id uname,
             MoveEvt.enterMsg target_room_id uname])

/-! ### Script engine (`script_engine.py`) -/

/-- Variable write of the script verb `set`: `set varname value` stores
under the key `f"\x7bbot_name\x7d_\x7bvar_name\x7d"`. -/
def script_set (vars : List (String × String)) (bot_name args : String) :
    List (String × String) :=
  match splitFirst args " " with
  | some (var_name, value) => setD vars (bot_name ++ "_" ++ var_name) value
  | none => vars

/-- Variable read of the script verb `get`; unset reads return `""`. -/
def script_get (vars : List (String × String)) (bot_name var_name : String) :
    String :=
  (lookupD vars (bot_name ++ "_" ++ var_name)).getD ""

/-- `\w` of the Python regex (ASCII fragment). -/
def isWordCh (c : Char) : Bool := c.isAlpha || c.isDigit || c == '_'

/-- The character `\x7b`. -/
def braceOpen : Char := Char.ofNat 123

/-- The character `\x7d`. -/
def braceClose : Char := Char.ofNat 125

/-- `re.match(r'(\w+)\s*\x5c\x7b(.+)\x5c\x7d', args, re.DOTALL)` of
`_function`: a nonempty word-character prefix, optional whitespace, an
opening brace, then greedily everything up to the last closing brace
(which must leave a nonempty body). -/
def parseNameBody (args : String) : Option (String × String) :=
  let cs := args.data
  let nm := cs.takeWhile isWordCh
  if nm.isEmpty then none
  else
    let rest := (cs.drop nm.length).dropWhile isSpaceCh
    match rest with
    | [] => none
    | c :: body =>
      if c == braceOpen then
        let rev := body.reverse
        let afterLen := (rev.takeWhile (fun ch => ch != braceClose)).length
        if afterLen == body.length then none
        else
          let inner := (rev.drop (afterLen + 1)).reverse
          if inner.isEmpty then none else some (⟨nm⟩, ⟨inner⟩)
      else none

/-- Parse a brace body into statements: split on `;`, strip, skip empties,
split each statement at its first space into verb and argument text. -/
def parseStmts (body : String) : List (String × String) :=
  (strSplitChar body ';').filterMap fun line =>
    let l := strStrip line
    if l == "" then none
    else match splitFirst l " " with
      | some (c, a) => some (c, a)
      | none => some (l, "")

/-- The script verb `function`: stores the parsed statement list under the
key `f"\x7bbot_name\x7d_\x7bfunc_name\x7d"`. -/
def script_function (ufs : List (String × List (String × String)))
    (bot_name args : String) : List (String × List (String × String)) :=
  match parseNameBody args with
  | some (fname, body) => setD ufs (bot_name ++ "_" ++ fname) (parseStmts body)
  | none => ufs

/-- The lookup the script verb `call` performs: the stored statement list
executed by `_call`, `none` when undefined (a no-op in the source). -/
def script_call (ufs : List (String × List (String × String)))
    (bot_name func_name : String) : Option (List (String × String)) :=
  lookupD ufs (bot_name ++ "_" ++ func_name)

/-- The script verb `give`: moves an item id from the invoking bot's
inventory to the named (telnet) user's inventory, silently a no-op when
the argument count, the user, the bot, or the item is missing. -/
def script_give (s : ServerState) (bot_name args : String) : ServerState :=
  match splitFirst args " " with
  | none => s
  | some (item_id, user_name) =>
    match lookupD s.users user_name with
    | none => s
    | some _ =>
      match lookupD s.bots bot_name with
      | none => s
      | some bot =>
        if bot.inventory.contains item_id then
          { s with
            bots := updateD s.bots bot_name
              (fun b => { b with inventory := b.inventory.erase item_id }),
            users := updateD s.users user_name
              (fun u => { u with inventory := u.inventory ++ [item_id] }) }
        else s

/-- The script verb `take`: the reverse transfer of `script_give`. -/
def script_take (s : ServerState) (bot_name args : String) : ServerState :=
  match splitFirst args " " with
  | none => s
  | some (item_id, user_name) =>
    match lookupD s.users user_name with
    | none => s
    | some user =>
      match lookupD s.bots bot_name with
      | none => s
      | some _ =>
        if user.inventory.contains item_id then
          { s with
            users := updateD s.users user_name
              (fun u => { u with inventory := u.inventory.erase item_id }),
            bots := updateD s.bots bot_name
              (fun b => { b with inventory := b.inventory ++ [item_id] }) }
        else s

/-! ### The item-transfer operation alphabet (claim C1) -/

/-- One invocation of an item-transfer operation: the web handlers
`get`/`drop`/`put ... in`/`give ... to`/`open`/`close` and the script verbs
`give`/`take`. -/
inductive Op where
  | get (uname item_name : String)
  | drop (uname item_name : String)
  | putIn (uname item_name container_name : String)
  | giveTo (uname item_name target_name : String)
  | openC (uname item_name : String)
  | closeC (uname item_name : String)
  | sgive (bot_name args : String)
  | stake (bot_name args : String)

/-- State transition of a single operation (messages discarded). -/
def step (s : ServerState) : Op → ServerState
  | Op.get uname n => (handle_get_item s uname n).2
  | Op.drop uname n => (handle_drop_item s uname n).2
  | Op.putIn uname n c => (handle_put_in_container s uname n c).2
  | Op.giveTo uname n t => (handle_give_to_target s uname n t).2
  | Op.openC uname n => (handle_open_item s uname n).2
  | Op.closeC uname n => (handle_close_item s uname n).2
  | Op.sgive b a => script_give s b a
  | Op.stake b a => script_take s b a

/-- Run a sequence of item-transfer operations. -/
def runOps (s : ServerState) (ops : List Op) : ServerState :=
  ops.foldl step s

/-- Total number of occurrences of an item id across every holding
collection: room item sets, web-user inventories, telnet-user inventories,
bot inventories and container contents.  The ownership invariant of the
spec is `itemCount s id = 1`. -/
def itemCount (s : ServerState) (id : String) : Nat :=
  (s.rooms.map (fun e => e.2.items.count id)).sum
    + (s.web_users.map (fun e => e.2.inventory.count id)).sum
    + (s.users.map (fun e => e.2.inventory.count id)).sum
    + (s.bots.map (fun e => e.2.inventory.count id)).sum
    + (s.items.map (fun e => e.2.contents.count id)).sum

/-- Well-formedness needed by the transfer handlers: every web user's
current room exists (`handle_drop_item` would otherwise discard the item
after removing it from the inventory). -/
def wfState (s : ServerState) : Prop :=
  ∀ e ∈ s.web_users, (lookupD s.rooms e.2.room_id).isSome

/-! ### Association-list lemmas -/

theorem lookupD_mem {α : Type} {d : List (String × α)} {k : String} {v : α}
    (h : lookupD d k = some v) : (k, v) ∈ d := by
  induction d with
  | nil => simp [lookupD] at h
  | cons e rest ih =>
    by_cases he : e.1 == k
    · simp [lookupD, he] at h
      have h1 : e.1 = k := by simpa using he
      have he2 : e = (k, v) := by cases e; simp_all
      rw [he2]
      exact List.mem_cons_self ..
    · simp [lookupD, he] at h
      exact List.mem_cons_of_mem _ (ih h)

theorem updateD_keys {α : Type} (d : List (String × α)) (k : String)
    (f : α → α) : (updateD d k f).map Prod.fst = d.map Prod.fst := by
  induction d with
  | nil => rfl
  | cons e rest ih =>
    by_cases he : e.1 == k
    · simp [updateD, he]
    · simp [updateD, he, ih]

theorem lookupD_updateD_ne {α : Type} (d : List (String × α))
    (k k' : String) (f : α → α) (h : k' ≠ k) :
    lookupD (updateD d k f) k' = lookupD d k' := by
  induction d with
  | nil => rfl
  | cons e rest ih =>
    by_cases he : e.1 == k
    · have h1 : e.1 = k := by simpa using he
      have h2 : ¬ (e.1 == k') := by simp [h1]; exact fun hh => h hh.symm
      simp [updateD, lookupD, he, h2]
    · by_cases he' : e.1 == k'
      · simp [updateD, lookupD, he, he']
      · simp [updateD, lookupD, he, he', ih]

theorem lookupD_isSome_updateD {α : Type} (d : List (String × α))
    (k k' : String) (f : α → α) :
    (lookupD (updateD d k f) k').isSome = (lookupD d k').isSome := by
  induction d with
  | nil => rfl
  | cons e rest ih =>
    by_cases he : e.1 == k
    · by_cases he' : e.1 == k'
      · simp [updateD, lookupD, he, he']
      · simp [updateD, lookupD, he, he']
    · by_cases he' : e.1 == k'
      · simp [updateD, lookupD, he, he']
      · simp [updateD, lookupD, he, he', ih]

/-- Every entry of `updateD d k f` is an entry of `d` or the image under
`f` of an entry of `d` (same key). -/
theorem updateD_mem {α : Type} {d : List (String × α)} {k : String}
    {f : α → α} {x : String × α} (h : x ∈ updateD d k f) :
    x ∈ d ∨ ∃ e ∈ d, x = (e.1, f e.2) := by
  induction d with
  | nil => simp [updateD] at h
  | cons e rest ih =>
    by_cases he : e.1 == k
    · simp [updateD, he] at h
      rcases h with h | h
      · right; exact ⟨e, List.mem_cons_self .., h⟩
      · left; exact List.mem_cons_of_mem _ h
    · simp [updateD, he] at h
      rcases h with h | h
      · left; simp [h]
      · rcases ih h with h' | ⟨e', he', hx⟩
        · left; exact List.mem_cons_of_mem _ h'
        · right; exact ⟨e', List.mem_cons_of_mem _ he', hx⟩

/-- The sum of a per-entry measure after an in-place update, expressed
without natural subtraction. -/
theorem sum_map_updateD {α : Type} {d : List (String × α)} {k : String}
    {v : α} (f : α → α) (g : α → Nat) (h : lookupD d k = some v) :
    ((updateD d k f).map (fun e => g e.2)).sum + g v
      = (d.map (fun e => g e.2)).sum + g (f v) := by
  induction d with
  | nil => simp [lookupD] at h
  | cons e rest ih =>
    by_cases he : e.1 == k
    · simp [lookupD, he] at h
      subst h
      simp [updateD, he]
      omega
    · simp [lookupD, he] at h
      simp [updateD, he]
      have := ih h
      omega

/-! ### Facts about the name-lookup scans -/

theorem findItemIn_eq {items : List (String × Item)} {ids : List String}
    {target i : String} {it : Item}
    (h : findItemIn items ids target = some (i, it)) :
    lookupD items i = some it ∧ i ∈ ids := by
  induction ids with
  | nil => simp [findItemIn] at h
  | cons x rest ih =>
    rw [findItemIn] at h
    cases hx : lookupD items x with
    | none =>
      rw [hx] at h
      obtain ⟨h1, h2⟩ := ih h
      exact ⟨h1, List.mem_cons_of_mem _ h2⟩
    | some jt =>
      rw [hx] at h
      by_cases hn : strLower jt.name == strLower target
      · simp [hn] at h
        obtain ⟨h1, h2⟩ := h
        subst h1; subst h2
        exact ⟨hx, List.mem_cons_self ..⟩
      · simp [hn] at h
        obtain ⟨h1, h2⟩ := ih h
        exact ⟨h1, List.mem_cons_of_mem _ h2⟩

theorem findContainerTake_eq {items : List (String × Item)}
    {ids : List String} {target i cid : String} {c cit : Item}
    (h : findContainerTake items ids target = some (i, c, cid, cit)) :
    lookupD items i = some c ∧ cid ∈ c.contents := by
  induction ids with
  | nil => simp [findContainerTake] at h
  | cons x rest ih =>
    rw [findContainerTake] at h
    cases hx : lookupD items x with
    | none => rw [hx] at h; exact ih h
    | some jc =>
      rw [hx] at h
      dsimp only at h
      by_cases hoc : jc.is_container && jc.is_open
      · rw [if_pos hoc] at h
        cases hf : findItemIn items jc.contents target with
        | none => rw [hf] at h; exact ih h
        | some q =>
          obtain ⟨qid, qit⟩ := q
          rw [hf] at h
          simp at h
          obtain ⟨h1, h2, h3, h4⟩ := h
          subst h1; subst h2; subst h3; subst h4
          exact ⟨hx, (findItemIn_eq hf).2⟩
      · rw [if_neg hoc] at h; exact ih h

theorem findTargetUser_ne {roomUsers : List String} {giver target n : String}
    (h : findTargetUser roomUsers giver target = some n) : n ≠ giver := by
  induction roomUsers with
  | nil => simp [findTargetUser] at h
  | cons x rest ih =>
    rw [findTargetUser] at h
    by_cases hx : x != giver && strLower x == strLower target
    · rw [if_pos hx] at h
      obtain rfl : x = n := by simpa using h
      simp only [Bool.and_eq_true, bne_iff_ne] at hx
      exact hx.1
    · rw [if_neg hx] at h; exact ih h

/-- Moving one occurrence of `x` from `l` to the end of `m` preserves the
total occurrence count of every id. -/
theorem count_erase_append (l m : List String) (a x : String) (hx : x ∈ l) :
    (l.erase x).count a + (m ++ [x]).count a = l.count a + m.count a := by
  rw [List.count_append]
  by_cases hax : a = x
  · subst hax
    rw [List.count_erase_self]
    have hpos : 0 < l.count a := List.count_pos_iff.mpr hx
    simp [List.count_singleton]
    omega
  · rw [List.count_erase_of_ne hax]
    have : [x].count a = 0 := by
      simp [List.count_singleton']
      exact fun hh => hax hh.symm
    omega

/-! ### Ownership-count preservation, one operation at a time -/

theorem itemCount_get (s : ServerState) (uname n id : String) :
    itemCount (handle_get_item s uname n).2 id = itemCount s id := by
  unfold handle_get_item
  cases hu : lookupD s.web_users uname with
  | none => rfl
  | some u =>
    dsimp only
    cases hr : lookupD s.rooms u.room_id with
    | none => rfl
    | some room =>
      dsimp only
      cases hct : findContainerTake s.items room.items n with
      | some q =>
        obtain ⟨i, c, cid, cit⟩ := q
        dsimp only
        obtain ⟨hic, hcm⟩ := findContainerTake_eq hct
        have h1 := sum_map_updateD
          (fun it => { it with contents := it.contents.erase cid })
          (fun it => it.contents.count id) hic
        have h2 := sum_map_updateD
          (fun w => { w with inventory := w.inventory ++ [cid] })
          (fun w => w.inventory.count id) hu
        have key := count_erase_append c.contents u.inventory id cid hcm
        dsimp only at h1 h2
        simp only [itemCount]
        omega
      | none =>
        dsimp only
        cases hfi : findItemIn s.items room.items n with
        | none => rfl
        | some q =>
          obtain ⟨item_id, it⟩ := q
          dsimp only
          obtain ⟨hii, him⟩ := findItemIn_eq hfi
          by_cases htag : it.tags.contains "immovable" = true
          · rw [if_pos htag]
          · rw [if_neg htag]
            have h1 := sum_map_updateD
              (fun r => { r with items := r.items.erase item_id })
              (fun r => r.items.count id) hr
            have h2 := sum_map_updateD
              (fun w => { w with inventory := w.inventory ++ [item_id] })
              (fun w => w.inventory.count id) hu
            have key := count_erase_append room.items u.inventory id item_id him
            dsimp only at h1 h2
            simp only [itemCount]
            omega

theorem itemCount_drop (s : ServerState) (uname n id : String)
    (hwf : wfState s) :
    itemCount (handle_drop_item s uname n).2 id = itemCount s id := by
  unfold handle_drop_item
  cases hu : lookupD s.web_users uname with
  | none => rfl
  | some u =>
    dsimp only
    cases hfi : findItemIn s.items u.inventory n with
    | none => rfl
    | some q =>
      obtain ⟨item_id, it⟩ := q
      dsimp only
      obtain ⟨hii, him⟩ := findItemIn_eq hfi
      have hsome : (lookupD s.rooms u.room_id).isSome :=
        hwf (uname, u) (lookupD_mem hu)
      cases hr : lookupD s.rooms u.room_id with
      | none => rw [hr] at hsome; simp at hsome
      | some room =>
        dsimp only
        have h1 := sum_map_updateD
          (fun w => { w with inventory := w.inventory.erase item_id })
          (fun w => w.inventory.count id) hu
        have h2 := sum_map_updateD
          (fun r => { r with items := r.items ++ [item_id] })
          (fun r => r.items.count id) hr
        have key := count_erase_append u.inventory room.items id item_id him
        dsimp only at h1 h2
        simp only [itemCount]
        omega

theorem itemCount_putIn (s : ServerState) (uname n cn id : String) :
    itemCount (handle_put_in_container s uname n cn).2 id = itemCount s id := by
  unfold handle_put_in_container
  cases hu : lookupD s.web_users uname with
  | none => rfl
  | some u =>
    dsimp only
    cases hfi : findItemIn s.items u.inventory n with
    | none => rfl
    | some q =>
      obtain ⟨item_id, it⟩ := q
      dsimp only
      cases hr : lookupD s.rooms u.room_id with
      | none => rfl
      | some room =>
        dsimp only
        cases hfc : findItemIn s.items room.items cn with
        | none => rfl
        | some qc =>
          obtain ⟨container_id, c⟩ := qc
          dsimp only
          obtain ⟨hic, _⟩ := findItemIn_eq hfc
          obtain ⟨_, him⟩ := findItemIn_eq hfi
          by_cases hb1 : (!c.is_container) = true
          · rw [if_pos hb1]
          · rw [if_neg hb1]
            by_cases hb2 : (!c.is_open) = true
            · rw [if_pos hb2]
            · rw [if_neg hb2]
              have h1 := sum_map_updateD
                (fun w => { w with inventory := w.inventory.erase item_id })
                (fun w => w.inventory.count id) hu
              have h2 := sum_map_updateD
                (fun ci => { ci with contents := ci.contents ++ [item_id] })
                (fun ci => ci.contents.count id) hic
              have key := count_erase_append u.inventory c.contents id item_id him
              dsimp only at h1 h2
              simp only [itemCount]
              omega

theorem itemCount_giveTo (s : ServerState) (uname n tn id : String) :
    itemCount (handle_give_to_target s uname n tn).2 id = itemCount s id := by
  unfold handle_give_to_target
  cases hu : lookupD s.web_users uname with
  | none => rfl
  | some u =>
    dsimp only
    cases hfi : findItemIn s.items u.inventory n with
    | none => rfl
    | some q =>
      obtain ⟨item_id, it⟩ := q
      dsimp only
      cases hr : lookupD s.rooms u.room_id with
      | none => rfl
      | some room =>
        dsimp only
        cases hft : findTargetUser room.users uname tn with
        | none =>
          dsimp only
          cases findGiveBot s.bots u.room_id tn u.admin <;> rfl
        | some user_name =>
          dsimp only
          cases htl : lookupD s.web_users user_name with
          | none => rfl
          | some t =>
            dsimp only
            obtain ⟨_, him⟩ := findItemIn_eq hfi
            have hne : user_name ≠ uname := findTargetUser_ne hft
            have htl' : lookupD
                (updateD s.web_users uname
                  (fun g => { g with inventory := g.inventory.erase item_id }))
                user_name = some t := by
              rw [lookupD_updateD_ne _ _ _ _ hne]; exact htl
            have h1 := sum_map_updateD
              (fun g => { g with inventory := g.inventory.erase item_id })
              (fun w => w.inventory.count id) hu
            have h2 := sum_map_updateD
              (fun t => { t with inventory := t.inventory ++ [item_id] })
              (fun w => w.inventory.count id) htl'
            have key := count_erase_append u.inventory t.inventory id item_id him
            dsimp only at h1 h2
            simp only [itemCount]
            omega

theorem itemCount_openC (s : ServerState) (uname n id : String) :
    itemCount (handle_open_item s uname n).2 id = itemCount s id := by
  unfold handle_open_item
  cases hu : lookupD s.web_users uname with
  | none => rfl
  | some u =>
    dsimp only
    cases hr : lookupD s.rooms u.room_id with
    | none => rfl
    | some room =>
      dsimp only
      cases hfi : findItemIn s.items room.items n with
      | none => rfl
      | some q =>
        obtain ⟨item_id, it⟩ := q
        dsimp only
        obtain ⟨hii, _⟩ := findItemIn_eq hfi
        by_cases hb1 : (!it.is_container) = true
        · rw [if_pos hb1]
        · rw [if_neg hb1]
          by_cases hb2 : it.is_open = true
          · rw [if_pos hb2]
          · rw [if_neg hb2]
            have h1 := sum_map_updateD (fun i => { i with is_open := true })
              (fun i => i.contents.count id) hii
            dsimp only at h1
            have hmain : itemCount
                { s with
                  items := updateD s.items item_id fun i =>
                    { i with is_open := true } } id = itemCount s id := by
              simp only [itemCount]
              omega
            by_cases hc : (!it.contents.isEmpty) = true
            · rw [if_pos hc]; exact hmain
            · rw [if_neg hc]; exact hmain

theorem itemCount_closeC (s : ServerState) (uname n id : String) :
    itemCount (handle_close_item s uname n).2 id = itemCount s id := by
  unfold handle_close_item
  cases hu : lookupD s.web_users uname with
  | none => rfl
  | some u =>
    dsimp only
    cases hr : lookupD s.rooms u.room_id with
    | none => rfl
    | some room =>
      dsimp only
      cases hfi : findItemIn s.items room.items n with
      | none => rfl
      | some q =>
        obtain ⟨item_id, it⟩ := q
        dsimp only
        obtain ⟨hii, _⟩ := findItemIn_eq hfi
        by_cases hb1 : (!it.is_container) = true
        · rw [if_pos hb1]
        · rw [if_neg hb1]
          by_cases hb2 : (!it.is_open) = true
          · rw [if_pos hb2]
          · rw [if_neg hb2]
            have h1 := sum_map_updateD (fun i => { i with is_open := false })
              (fun i => i.contents.count id) hii
            dsimp only at h1
            simp only [itemCount]
            omega

theorem itemCount_sgive (s : ServerState) (bn args id : String) :
    itemCount (script_give s bn args) id = itemCount s id := by
  unfold script_give
  cases hsp : splitFirst args " " with
  | none => rfl
  | some q =>
    obtain ⟨item_id, user_name⟩ := q
    dsimp only
    cases husr : lookupD s.users user_name with
    | none => rfl
    | some user =>
      dsimp only
      cases hbot : lookupD s.bots bn with
      | none => rfl
      | some bot =>
        dsimp only
        by_cases hcon : bot.inventory.contains item_id = true
        · rw [if_pos hcon]
          have him : item_id ∈ bot.inventory := by simpa using hcon
          have h1 := sum_map_updateD
            (fun b => { b with inventory := b.inventory.erase item_id })
            (fun b => b.inventory.count id) hbot
          have h2 := sum_map_updateD
            (fun u => { u with inventory := u.inventory ++ [item_id] })
            (fun u => u.inventory.count id) husr
          have key := count_erase_append bot.inventory user.inventory id item_id him
          dsimp only at h1 h2
          simp only [itemCount]
          omega
        · rw [if_neg hcon]

theorem itemCount_stake (s : ServerState) (bn args id : String) :
    itemCount (script_take s bn args) id = itemCount s id := by
  unfold script_take
  cases hsp : splitFirst args " " with
  | none => rfl
  | some q =>
    obtain ⟨item_id, user_name⟩ := q
    dsimp only
    cases husr : lookupD s.users user_name with
    | none => rfl
    | some user =>
      dsimp only
      cases hbot : lookupD s.bots bn with
      | none => rfl
      | some bot =>
        dsimp only
        by_cases hcon : user.inventory.contains item_id = true
        · rw [if_pos hcon]
          have him : item_id ∈ user.inventory := by simpa using hcon
          have h1 := sum_map_updateD
            (fun u => { u with inventory := u.inventory.erase item_id })
            (fun u => u.inventory.count id) husr
          have h2 := sum_map_updateD
            (fun b => { b with inventory := b.inventory ++ [item_id] })
            (fun b => b.inventory.count id) hbot
          have key := count_erase_append user.inventory bot.inventory id item_id him
          dsimp only at h1 h2
          simp only [itemCount]
          omega
        · rw [if_neg hcon]

/-! ### Well-formedness is preserved by every operation -/

theorem wfState_of {s s' : ServerState}
    (h1 : ∀ k, (lookupD s'.rooms k).isSome = (lookupD s.rooms k).isSome)
    (h2 : ∀ e ∈ s'.web_users, ∃ e' ∈ s.web_users, e.2.room_id = e'.2.room_id)
    (hwf : wfState s) : wfState s' := by
  intro e he
  obtain ⟨e', he', hr⟩ := h2 e he
  rw [h1, hr]
  exact hwf e' he'

theorem updateD_roomid_mem {d : List (String × WebUser)} {k : String}
    {f : WebUser → WebUser} (hf : ∀ v, (f v).room_id = v.room_id) :
    ∀ e ∈ updateD d k f, ∃ e' ∈ d, e.2.room_id = e'.2.room_id := by
  intro e he
  rcases updateD_mem he with h | ⟨e', he', hx⟩
  · exact ⟨e, h, rfl⟩
  · exact ⟨e', he', by rw [hx]; exact hf e'.2⟩

theorem wf_get (s : ServerState) (uname n : String) (hwf : wfState s) :
    wfState (handle_get_item s uname n).2 := by
  unfold handle_get_item
  cases hu : lookupD s.web_users uname with
  | none => exact hwf
  | some u =>
    dsimp only
    cases hr : lookupD s.rooms u.room_id with
    | none => exact hwf
    | some room =>
      dsimp only
      cases hct : findContainerTake s.items room.items n with
      | some q =>
        obtain ⟨i, c, cid, cit⟩ := q
        dsimp only
        refine wfState_of ?_ ?_ hwf
        · intro k; rfl
        · exact updateD_roomid_mem fun v => rfl
      | none =>
        dsimp only
        cases hfi : findItemIn s.items room.items n with
        | none => exact hwf
        | some q =>
          obtain ⟨item_id, it⟩ := q
          dsimp only
          by_cases htag : it.tags.contains "immovable" = true
          · rw [if_pos htag]; exact hwf
          · rw [if_neg htag]
            refine wfState_of ?_ ?_ hwf
            · intro k; exact lookupD_isSome_updateD ..
            · exact updateD_roomid_mem fun v => rfl

theorem wf_drop (s : ServerState) (uname n : String) (hwf : wfState s) :
    wfState (handle_drop_item s uname n).2 := by
  unfold handle_drop_item
  cases hu : lookupD s.web_users uname with
  | none => exact hwf
  | some u =>
    dsimp only
    cases hfi : findItemIn s.items u.inventory n with
    | none => exact hwf
    | some q =>
      obtain ⟨item_id, it⟩ := q
      dsimp only
      cases hr : lookupD s.rooms u.room_id with
      | none =>
        refine wfState_of ?_ ?_ hwf
        · intro k; rfl
        · exact updateD_roomid_mem fun v => rfl
      | some room =>
        dsimp only
        refine wfState_of ?_ ?_ hwf
        · intro k; exact lookupD_isSome_updateD ..
        · exact updateD_roomid_mem fun v => rfl

theorem wf_putIn (s : ServerState) (uname n cn : String) (hwf : wfState s) :
    wfState (handle_put_in_container s uname n cn).2 := by
  unfold handle_put_in_container
  cases hu : lookupD s.web_users uname with
  | none => exact hwf
  | some u =>
    dsimp only
    cases hfi : findItemIn s.items u.inventory n with
    | none => exact hwf
    | some q =>
      obtain ⟨item_id, it⟩ := q
      dsimp only
      cases hr : lookupD s.rooms u.room_id with
      | none => exact hwf
      | some room =>
        dsimp only
        cases hfc : findItemIn s.items room.items cn with
        | none => exact hwf
        | some qc =>
          obtain ⟨container_id, c⟩ := qc
          dsimp only
          by_cases hb1 : (!c.is_container) = true
          · rw [if_pos hb1]; exact hwf
          · rw [if_neg hb1]
            by_cases hb2 : (!c.is_open) = true
            · rw [if_pos hb2]; exact hwf
            · rw [if_neg hb2]
              refine wfState_of ?_ ?_ hwf
              · intro k; rfl
              · exact updateD_roomid_mem fun v => rfl

theorem wf_giveTo (s : ServerState) (uname n tn : String) (hwf : wfState s) :
    wfState (handle_give_to_target s uname n tn).2 := by
  unfold handle_give_to_target
  cases hu : lookupD s.web_users uname with
  | none => exact hwf
  | some u =>
    dsimp only
    cases hfi : findItemIn s.items u.inventory n with
    | none => exact hwf
    | some q =>
      obtain ⟨item_id, it⟩ := q
      dsimp only
      cases hr : lookupD s.rooms u.room_id with
      | none => exact hwf
      | some room =>
        dsimp only
        cases hft : findTargetUser room.users uname tn with
        | none =>
          dsimp only
          cases findGiveBot s.bots u.room_id tn u.admin <;> exact hwf
        | some user_name =>
          dsimp only
          cases htl : lookupD s.web_users user_name with
          | none => exact hwf
          | some t =>
            dsimp only
            refine wfState_of ?_ ?_ hwf
            · intro k; rfl
            intro e he
            obtain ⟨e1, he1, hre⟩ :=
              updateD_roomid_mem (f := fun t =>
                { t with inventory := t.inventory ++ [item_id] })
                (fun v => rfl) e he
            obtain ⟨e2, he2, hre2⟩ :=
              updateD_roomid_mem (f := fun g =>
                { g with inventory := g.inventory.erase item_id })
                (fun v => rfl) e1 he1
            exact ⟨e2, he2, hre.trans hre2⟩

theorem wf_openC (s : ServerState) (uname n : String) (hwf : wfState s) :
    wfState (handle_open_item s uname n).2 := by
  unfold handle_open_item
  cases hu : lookupD s.web_users uname with
  | none => exact hwf
  | some u =>
    dsimp only
    cases hr : lookupD s.rooms u.room_id with
    | none => exact hwf
    | some room =>
      dsimp only
      cases hfi : findItemIn s.items room.items n with
      | none => exact hwf
      | some q =>
        obtain ⟨item_id, it⟩ := q
        dsimp only
        by_cases hb1 : (!it.is_container) = true
        · rw [if_pos hb1]; exact hwf
        · rw [if_neg hb1]
          by_cases hb2 : it.is_open = true
          · rw [if_pos hb2]; exact hwf
          · rw [if_neg hb2]
            by_cases hc : (!it.contents.isEmpty) = true
            · rw [if_pos hc]; exact hwf
            · rw [if_neg hc]; exact hwf

theorem wf_closeC (s : ServerState) (uname n : String) (hwf : wfState s) :
    wfState (handle_close_item s uname n).2 := by
  unfold handle_close_item
  cases hu : lookupD s.web_users uname with
  | none => exact hwf
  | some u =>
    dsimp only
    cases hr : lookupD s.rooms u.room_id with
    | none => exact hwf
    | some room =>
      dsimp only
      cases hfi : findItemIn s.items room.items n with
      | none => exact hwf
      | some q =>
        obtain ⟨item_id, it⟩ := q
        dsimp only
        by_cases hb1 : (!it.is_container) = true
        · rw [if_pos hb1]; exact hwf
        · rw [if_neg hb1]
          by_cases hb2 : (!it.is_open) = true
          · rw [if_pos hb2]; exact hwf
          · rw [if_neg hb2]; exact hwf

theorem wf_sgive (s : ServerState) (bn args : String) (hwf : wfState s) :
    wfState (script_give s bn args) := by
  unfold script_give
  cases hsp : splitFirst args " " with
  | none => exact hwf
  | some q =>
    obtain ⟨item_id, user_name⟩ := q
    dsimp only
    cases husr : lookupD s.users user_name with
    | none => exact hwf
    | some user =>
      dsimp only
      cases hbot : lookupD s.bots bn with
      | none => exact hwf
      | some bot =>
        dsimp only
        by_cases hcon : bot.inventory.contains item_id = true
        · rw [if_pos hcon]; exact hwf
        · rw [if_neg hcon]; exact hwf

theorem wf_stake (s : ServerState) (bn args : String) (hwf : wfState s) :
    wfState (script_take s bn args) := by
  unfold script_take
  cases hsp : splitFirst args " " with
  | none => exact hwf
  | some q =>
    obtain ⟨item_id, user_name⟩ := q
    dsimp only
    cases husr : lookupD s.users user_name with
    | none => exact hwf
    | some user =>
      dsimp only
      cases hbot : lookupD s.bots bn with
      | none => exact hwf
      | some bot =>
        dsimp only
        by_cases hcon : user.inventory.contains item_id = true
        · rw [if_pos hcon]; exact hwf
        · rw [if_neg hcon]; exact hwf

/-- A single operation changes no item's total occurrence count. -/
theorem itemCount_step (s : ServerState) (op : Op) (id : String)
    (hwf : wfState s) : itemCount (step s op) id = itemCount s id := by
  cases op with
  | get uname n => exact itemCount_get s uname n id
  | drop uname n => exact itemCount_drop s uname n id hwf
  | putIn uname n cn => exact itemCount_putIn s uname n cn id
  | giveTo uname n tn => exact itemCount_giveTo s uname n tn id
  | openC uname n => exact itemCount_openC s uname n id
  | closeC uname n => exact itemCount_closeC s uname n id
  | sgive bn a => exact itemCount_sgive s bn a id
  | stake bn a => exact itemCount_stake s bn a id

/-- A single operation preserves well-formedness. -/
theorem wf_step (s : ServerState) (op : Op) (hwf : wfState s) :
    wfState (step s op) := by
  cases op with
  | get uname n => exact wf_get s uname n hwf
  | drop uname n => exact wf_drop s uname n hwf
  | putIn uname n cn => exact wf_putIn s uname n cn hwf
  | giveTo uname n tn => exact wf_giveTo s uname n tn hwf
  | openC uname n => exact wf_openC s uname n hwf
  | closeC uname n => exact wf_closeC s uname n hwf
  | sgive bn a => exact wf_sgive s bn a hwf
  | stake bn a => exact wf_stake s bn a hwf

/-! ### Sample worlds used by the witnesses and counterexamples -/

/-- A small world: one user in the lobby, a coin on the floor, an open
chest, a statue tagged immovable, and a second user in the garden. -/
def w0 : ServerState :=
  { items :=
      [("coin1", { id := "coin1", name := "Gold Coin",
                   description := "A shiny gold coin." }),
       ("chest1", { id := "chest1", name := "Treasure Chest",
                    description := "An ancient chest.", is_container := true,
                    is_open := true, contents := [] }),
       ("statue1", { id := "statue1", name := "Statue",
                     description := "A heavy stone statue.",
                     tags := ["immovable"] })],
    rooms :=
      [("lobby", { id := "lobby", exits := [("north", "garden")],
                   items := ["coin1", "chest1", "statue1"],
                   users := ["alice", "bob"] }),
       ("garden", { id := "garden", exits := [("south", "lobby")],
                    items := [], users := [] })],
    web_users :=
      [("alice", { name := "alice", room_id := "lobby" }),
       ("bob", { name := "bob", room_id := "lobby" })],
    users := [],
    bots := [] }

/-! ### Claim theorems -/

/-- C1: for every item id and every state reachable from a well-formed
state by any sequence of the item-transfer operations (get, drop,
put-in-container, give, open/close and the script verbs give/take), an
item held in exactly one collection (a room's item set, a user's or bot's
inventory, or a container's contents) stays in exactly one collection. -/
theorem C1_ownership_invariant (ops : List Op) (s : ServerState)
    (id : String) (hwf : wfState s) (h1 : itemCount s id = 1) :
    itemCount (runOps s ops) id = 1 := by
  induction ops generalizing s with
  | nil => exact h1
  | cons op rest ih =>
    exact ih (step s op) (wf_step s op hwf)
      ((itemCount_step s op id hwf).trans h1)

/-- Witness for C1: in the sample world the coin is owned exactly once
after a get / put-in / open-close / drop sequence. -/
theorem C1_ownership_invariant_witness :
    itemCount (runOps w0
      [Op.get "alice" "gold coin",
       Op.putIn "alice" "Gold Coin" "treasure chest",
       Op.closeC "alice" "Treasure Chest",
       Op.openC "alice" "Treasure Chest",
       Op.get "alice" "Gold Coin",
       Op.giveTo "alice" "Gold Coin" "Bob"]) "coin1" = 1 :=
  C1_ownership_invariant _ w0 "coin1" (by unfold wfState; decide) (by decide)

/-- C2 counterexample: the claim describes resolution as exact match then
prefix logic for *every* token, but the single-character alias step comes
first: for the token `s` more than one candidate (`say`, `south`) matches,
so the claim demands an ambiguous result, yet the code returns `south`. -/
theorem C2_counterexample :
    resolve_command "s" false = "south" ∧
    resolveSpecC2 "s" false = "AMBIGUOUS:say,south" ∧
    resolve_command "s" false ≠ resolveSpecC2 "s" false := by decide

/-- C2 (amended): for every token that is not a single-character alias,
resolution is exactly the claim's description — the token itself on an
exact candidate match, the unique prefix match, an ambiguous result
carrying the full candidate list on several matches, and the original
token on none (admin-only names being candidates only for admins). -/
theorem C2_prefix_resolution (cmd : String) (adm : Bool)
    (h : (if cmd.data.length == 1 then lookupD cmd_aliases cmd else none)
      = none) :
    resolve_command cmd adm = resolveSpecC2 cmd adm := by
  unfold resolve_command resolveSpecC2
  rw [h]

/-- Witness for C2: the non-alias token `lo` resolves per the claim. -/
theorem C2_prefix_resolution_witness :
    resolve_command "lo" false = resolveSpecC2 "lo" false :=
  C2_prefix_resolution "lo" false (by decide)

/-- C3: each of the nine single-character aliases resolves to its mapped
command for privileged and unprivileged actors alike, even though (for
example) more than one registered command prefix-matches `s`. -/
theorem C3_alias_short_circuit :
    ∀ adm : Bool,
      resolve_command "n" adm = "north" ∧ resolve_command "s" adm = "south" ∧
      resolve_command "e" adm = "east" ∧ resolve_command "w" adm = "west" ∧
      resolve_command "l" adm = "look" ∧ resolve_command "g" adm = "go" ∧
      resolve_command "i" adm = "inventory" ∧
      resolve_command "h" adm = "help" ∧
      resolve_command "v" adm = "version" ∧
      2 ≤ ((all_commands adm).filter (fun c => strStarts c "s")).length := by
  intro adm
  cases adm <;> decide

/-- The order of coordinator steps the claim C4 prescribes: remove from
source, fire leave, assign and add, fire enter. -/
def specMoveOrderC4 (src dst user : String) : List MoveEvt :=
  [MoveEvt.removeOcc src user, MoveEvt.leaveMsg src user,
   MoveEvt.assignRoom user dst, MoveEvt.addOcc dst user,
   MoveEvt.enterMsg dst user]

/-- `w0` with a telnet user in the lobby, for the stream entry point. -/
def w4 : ServerState :=
  { rooms :=
      [("lobby", { id := "lobby", exits := [("north", "garden")],
                   items := [], users := ["alice"] }),
       ("garden", { id := "garden", exits := [("south", "lobby")],
                    items := [], users := [] })],
    users := [("alice", { room_id := "lobby" })] }

/-- C4 counterexample: on a successful move the web coordinator removes
the mover, assigns the new room and adds the mover, and only then sends
the leave and enter notifications, while the stream coordinator fires the
leave-room event before removing the mover — neither is the claimed
remove/leave/assign-add/enter order. -/
theorem C4_counterexample :
    (move_user w0 "alice" "north").2.2 =
      [MoveEvt.removeOcc "lobby" "alice",
       MoveEvt.assignRoom "alice" "garden",
       MoveEvt.addOcc "garden" "alice",
       MoveEvt.leaveMsg "lobby" "alice",
       MoveEvt.enterMsg "garden" "alice"] ∧
    (move_user w0 "alice" "north").1 = none ∧
    (move_user w0 "alice" "north").2.2
      ≠ specMoveOrderC4 "lobby" "garden" "alice" ∧
    (move_user_stream w4 "alice" "north").2.2 =
      [MoveEvt.leaveMsg "lobby" "alice",
       MoveEvt.removeOcc "lobby" "alice",
       MoveEvt.assignRoom "alice" "garden",
       MoveEvt.addOcc "garden" "alice",
       MoveEvt.enterMsg "garden" "alice"] ∧
    (move_user_stream w4 "alice" "north").1 = none ∧
    (move_user_stream w4 "alice" "north").2.2
      ≠ specMoveOrderC4 "lobby" "garden" "alice" := by decide

/-- C4 (amended): at both entry points every move either succeeds —
firing exactly one leave-room and one enter-room, in that order — or
fails with an error message and fires nothing; but the two entry points
disagree on where the occupant mutations sit: the web coordinator removes
the mover, assigns the new room and adds the mover before firing leave
then enter, while the stream coordinator fires leave-room first and only
then removes, assigns, adds and fires enter. -/
theorem C4_move_events (s : ServerState) (uname direction : String) :
    ((∃ src dst, (move_user s uname direction).2.2 =
        [MoveEvt.removeOcc src uname, MoveEvt.assignRoom uname dst,
         MoveEvt.addOcc dst uname, MoveEvt.leaveMsg src uname,
         MoveEvt.enterMsg dst uname]
      ∧ (move_user s uname direction).1 = none) ∨
    ((move_user s uname direction).2.2 = []
      ∧ (move_user s uname direction).1 ≠ none)) ∧
    ((∃ src dst, (move_user_stream s uname direction).2.2 =
        [MoveEvt.leaveMsg src uname, MoveEvt.removeOcc src uname,
         MoveEvt.assignRoom uname dst, MoveEvt.addOcc dst uname,
         MoveEvt.enterMsg dst uname]
      ∧ (move_user_stream s uname direction).1 = none) ∨
    ((move_user_stream s uname direction).2.2 = []
      ∧ (move_user_stream s uname direction).1 ≠ none)) := by
  constructor
  case right =>
    unfold move_user_stream
    cases hu : lookupD s.users uname with
    | none => right; exact ⟨rfl, by simp⟩
    | some user =>
      dsimp only
      cases hr : lookupD s.rooms user.room_id with
      | none => right; exact ⟨rfl, by simp⟩
      | some current_room =>
        dsimp only
        cases hte : lookupD current_room.exits direction with
        | none => right; exact ⟨rfl, by simp⟩
        | some target_room_id =>
          dsimp only
          by_cases hnone : (lookupD s.rooms target_room_id).isNone = true
          · rw [if_pos hnone]; right; exact ⟨rfl, by simp⟩
          · rw [if_neg hnone]; left
            exact ⟨user.room_id, target_room_id, rfl, rfl⟩
  case left =>
    unfold move_user
    cases hu : lookupD s.web_users uname with
    | none => right; exact ⟨rfl, by simp⟩
    | some u =>
      dsimp only
      cases hr : lookupD s.rooms u.room_id with
      | none => right; exact ⟨rfl, by simp⟩
      | some current_room =>
        dsimp only
        rcases hscan : scanExits current_room.exits direction with ⟨em, ms⟩
        dsimp only
        cases em with
        | some target_exit =>
          dsimp only
          cases hte : lookupD current_room.exits target_exit with
          | none => right; exact ⟨rfl, by simp⟩
          | some target_room_id =>
            dsimp only
            by_cases hnone : (lookupD s.rooms target_room_id).isNone = true
            · rw [if_pos hnone]; right; exact ⟨rfl, by simp⟩
            · rw [if_neg hnone]; left
              exact ⟨current_room.id, target_room_id, rfl, rfl⟩
        | none =>
          dsimp only
          cases ms with
          | nil => right; exact ⟨rfl, by simp⟩
          | cons m tail =>
            cases tail with
            | nil =>
              dsimp only
              cases hte : lookupD current_room.exits m with
              | none => right; exact ⟨rfl, by simp⟩
              | some target_room_id =>
                dsimp only
                by_cases hnone : (lookupD s.rooms target_room_id).isNone = true
                · rw [if_pos hnone]; right; exact ⟨rfl, by simp⟩
                · rw [if_neg hnone]; left
                  exact ⟨current_room.id, target_room_id, rfl, rfl⟩
            | cons m2 tail2 => right; exact ⟨rfl, by simp⟩

/-- Like `w0`, but the coin is in alice's inventory and the chest is
closed. -/
def w1 : ServerState :=
  { items :=
      [("coin1", { id := "coin1", name := "Gold Coin",
                   description := "A shiny gold coin." }),
       ("chest1", { id := "chest1", name := "Treasure Chest",
                    description := "An ancient chest.", is_container := true,
                    is_open := false, contents := [] })],
    rooms :=
      [("lobby", { id := "lobby", items := ["chest1"],
                   users := ["alice", "bob"] })],
    web_users :=
      [("alice", { name := "alice", room_id := "lobby",
                   inventory := ["coin1"] }),
       ("bob", { name := "bob", room_id := "lobby" })],
    users := [],
    bots := [] }

/-- C5: for a user holding a name-matching inventory item and a container
resolved among the room's items, `put ITEM in CONTAINER` fails with the
closed-container message and leaves the state untouched when the open flag
is false, and moves the item from the inventory to the container's
contents when it is true. -/
theorem C5_put_respects_open_flag (s : ServerState)
    (uname iname cname : String) (u : WebUser) (room : Room)
    (item_id container_id : String) (it c : Item)
    (hu : lookupD s.web_users uname = some u)
    (hfi : findItemIn s.items u.inventory iname = some (item_id, it))
    (hr : lookupD s.rooms u.room_id = some room)
    (hfc : findItemIn s.items room.items cname = some (container_id, c))
    (hcont : c.is_container = true) :
    (c.is_open = false →
      handle_put_in_container s uname iname cname
        = (s!"The {c.name} is closed.", s)) ∧
    (c.is_open = true →
      handle_put_in_container s uname iname cname
        = (s!"You put {it.name} in {c.name}.",
           { s with
             web_users := updateD s.web_users uname
               (fun w => { w with inventory := w.inventory.erase item_id }),
             items := updateD s.items container_id
               (fun ci => { ci with contents := ci.contents ++ [item_id] }) })) := by
  constructor <;> intro hop <;>
    · unfold handle_put_in_container
      rw [hu]; dsimp only
      rw [hfi]; dsimp only
      rw [hr]; dsimp only
      rw [hfc]; dsimp only
      simp [hcont, hop]

/-- Witness for C5: putting the coin into the closed chest of `w1` fails
with the closed-container message and changes nothing. -/
theorem C5_put_respects_open_flag_witness :
    handle_put_in_container w1 "alice" "Gold Coin" "Treasure Chest"
      = ("The Treasure Chest is closed.", w1) :=
  (C5_put_respects_open_flag w1 "alice" "Gold Coin" "Treasure Chest"
    { name := "alice", room_id := "lobby", inventory := ["coin1"] }
    { id := "lobby", items := ["chest1"], users := ["alice", "bob"] }
    "coin1" "chest1"
    { id := "coin1", name := "Gold Coin",
      description := "A shiny gold coin." }
    { id := "chest1", name := "Treasure Chest",
      description := "An ancient chest.", is_container := true,
      is_open := false, contents := [] }
    (by decide) (by decide) (by decide) (by decide) (by decide)).1 (by decide)

/-- The room-user scan returns a name that matches the target
case-insensitively. -/
theorem findTargetUser_lower {roomUsers : List String}
    {giver target n : String}
    (h : findTargetUser roomUsers giver target = some n) :
    strLower n = strLower target := by
  induction roomUsers with
  | nil => simp [findTargetUser] at h
  | cons x rest ih =>
    rw [findTargetUser] at h
    by_cases hx : x != giver && strLower x == strLower target
    · rw [if_pos hx] at h
      obtain rfl : x = n := by simpa using h
      simp only [Bool.and_eq_true, beq_iff_eq] at hx
      exact hx.2
    · rw [if_neg hx] at h; exact ih h

/-- C6: `give ITEM to TARGET` transfers the item only when it is present
in the giver's inventory and the matched room occupant has an active
session; whenever the item is absent or no active session's name matches
the target, the giver's record (inventory included) is unchanged. -/
theorem C6_give_only_if (s : ServerState) (uname iname tname : String)
    (u : WebUser) (hu : lookupD s.web_users uname = some u)
    (h : findItemIn s.items u.inventory iname = none ∨
      ∀ n ∈ s.web_users.map Prod.fst, strLower n ≠ strLower tname) :
    lookupD (handle_give_to_target s uname iname tname).2.web_users uname
      = some u := by
  unfold handle_give_to_target
  rw [hu]; dsimp only
  cases hfi : findItemIn s.items u.inventory iname with
  | none => exact hu
  | some q =>
    obtain ⟨item_id, it⟩ := q
    dsimp only
    have hact : ∀ n ∈ s.web_users.map Prod.fst,
        strLower n ≠ strLower tname := by
      rcases h with h | h
      · rw [h] at hfi; cases hfi
      · exact h
    cases hr : lookupD s.rooms u.room_id with
    | none => exact hu
    | some room =>
      dsimp only
      cases hft : findTargetUser room.users uname tname with
      | none =>
        dsimp only
        cases findGiveBot s.bots u.room_id tname u.admin <;> exact hu
      | some user_name =>
        dsimp only
        cases htl : lookupD s.web_users user_name with
        | none => exact hu
        | some t =>
          exfalso
          have hmem : user_name ∈ s.web_users.map Prod.fst := by
            have := lookupD_mem htl
            exact List.mem_map.mpr ⟨(user_name, t), this, rfl⟩
          exact hact user_name hmem (findTargetUser_lower hft)

/-- Witness for C6: in `w1` there is no occupant named charlie, so giving
the coin to charlie leaves alice's record unchanged. -/
theorem C6_give_only_if_witness :
    lookupD (handle_give_to_target w1 "alice" "Gold Coin" "Charlie").2.web_users
        "alice"
      = some { name := "alice", room_id := "lobby", inventory := ["coin1"] } :=
  C6_give_only_if w1 "alice" "Gold Coin" "Charlie"
    { name := "alice", room_id := "lobby", inventory := ["coin1"] }
    (by decide) (Or.inr (by decide))

/-- The closed-chest examination world: the chest holds the coin and is
closed. -/
def w2 : ServerState :=
  { items :=
      [("coin1", { id := "coin1", name := "Gold Coin",
                   description := "A shiny gold coin." }),
       ("chest1", { id := "chest1", name := "Treasure Chest",
                    description := "An ancient chest.", is_container := true,
                    is_open := false, contents := ["coin1"] })],
    rooms :=
      [("lobby", { id := "lobby", items := ["chest1"],
                   users := ["alice"] })],
    web_users := [("alice", { name := "alice", room_id := "lobby" })],
    users := [],
    bots := [] }

/-- `w2` with the chest open. -/
def w3 : ServerState :=
  { items :=
      [("coin1", { id := "coin1", name := "Gold Coin",
                   description := "A shiny gold coin." }),
       ("chest1", { id := "chest1", name := "Treasure Chest",
                    description := "An ancient chest.", is_container := true,
                    is_open := true, contents := ["coin1"] })],
    rooms :=
      [("lobby", { id := "lobby", items := ["chest1"],
                   users := ["alice"] })],
    web_users := [("alice", { name := "alice", room_id := "lobby" })],
    users := [],
    bots := [] }

/-- C7 (code bug): examining the closed, non-empty chest yields only
`name: description` — no closed-state indicator — and examining the open,
non-empty chest yields the same text with no content listing, although
`test_container_display.py` asserts a `closed` marker and a `Contains:`
enumeration. -/
theorem C7_examine_shows_no_container_state :
    handle_examine_target w2 "alice" "Treasure Chest"
      = "Treasure Chest: An ancient chest." ∧
    containsSub (handle_examine_target w2 "alice" "Treasure Chest") "closed"
      = false ∧
    handle_examine_target w3 "alice" "Treasure Chest"
      = "Treasure Chest: An ancient chest." ∧
    containsSub (handle_examine_target w3 "alice" "Treasure Chest") "Gold Coin"
      = false := by decide

/-! ### Scoping lemmas for the script engine (claim C8) -/

theorem lookupD_setD_ne {α : Type} (d : List (String × α)) (k k' : String)
    (v : α) (h : k' ≠ k) : lookupD (setD d k v) k' = lookupD d k' := by
  induction d with
  | nil =>
    have : ¬ (k == k') := by simp; exact fun hh => h hh.symm
    simp [setD, lookupD, this]
  | cons e rest ih =>
    by_cases he : e.1 == k
    · have h1 : e.1 = k := by simpa using he
      have h2 : ¬ (e.1 == k') := by simp [h1]; exact fun hh => h hh.symm
      simp [setD, lookupD, he, h2]
    · by_cases he' : e.1 == k'
      · simp [setD, lookupD, he, he']
      · simp [setD, lookupD, he, he', ih]

/-- Appending the same suffix to different strings keeps them different. -/
theorem append_ne_of_ne {A B : String} (v : String) (h : A ≠ B) :
    A ++ "_" ++ v ≠ B ++ "_" ++ v := by
  intro he
  apply h
  have hd : (A ++ "_" ++ v).data = (B ++ "_" ++ v).data :=
    congrArg String.data he
  rw [String.data_append, String.data_append, String.data_append,
    String.data_append] at hd
  have h1 := List.append_cancel_right hd
  have h2 := List.append_cancel_right h1
  cases A; cases B
  exact congrArg String.mk h2

/-- `findSub` for a single space on a space-free prefix. -/
theorem findSub_space (cs val : List Char) (h : ∀ c ∈ cs, c ≠ ' ') :
    findSub [' '] (cs ++ ' ' :: val) = some (cs, val) := by
  induction cs with
  | nil => simp [findSub, prefChars]
  | cons c rest ih =>
    have hc : c ≠ ' ' := h c (List.mem_cons_self ..)
    have hbeq : (' ' == c) = false := by
      simp
      exact fun hh => hc hh.symm
    rw [List.cons_append, findSub]
    have hpre : prefChars [' '] (c :: (rest ++ ' ' :: val)) = false := by
      rw [show prefChars [' '] (c :: (rest ++ ' ' :: val))
          = ((' ' == c) && prefChars [] (rest ++ ' ' :: val)) from rfl]
      rw [hbeq]
      rfl
    rw [hpre, ih (fun x hx => h x (List.mem_cons_of_mem _ hx))]
    rfl

/-- The `set` statement parse: with a space-free variable name the first
space splits name from value. -/
theorem splitFirst_name_value (v val : String) (hv : ' ' ∉ v.data) :
    splitFirst (v ++ " " ++ val) " " = some (v, val) := by
  unfold splitFirst
  have hd : (v ++ " " ++ val).data = v.data ++ ' ' :: val.data := by
    rw [String.data_append, String.data_append,
      show (" " : String).data = [' '] from rfl, List.append_assoc]
    rfl
  rw [hd, show (" " : String).data = [' '] from rfl,
    findSub_space v.data val.data (fun c hc => by rintro rfl; exact hv hc)]

/-- C8 (amended): variable writes of one actor never change another
actor's read of the same (space-free) variable name; a subroutine stored
by one actor is invisible to another actor's `call` whenever the two
concatenated `actor_name` keys differ — the namespaces are separated only
up to collisions of the string concatenation, as the counterexample
shows. -/
theorem C8_actor_scoping :
    (∀ (vars : List (String × String)) (A B v val : String),
      A ≠ B → ' ' ∉ v.data →
      script_get (script_set vars A (v ++ " " ++ val)) B v
        = script_get vars B v) ∧
    (∀ (ufs : List (String × List (String × String)))
      (A B args g fname body : String),
      parseNameBody args = some (fname, body) →
      A ++ "_" ++ fname ≠ B ++ "_" ++ g →
      script_call (script_function ufs A args) B g = script_call ufs B g) := by
  constructor
  · intro vars A B v val hAB hsp
    unfold script_set script_get
    rw [splitFirst_name_value v val hsp]
    dsimp only
    rw [lookupD_setD_ne vars (A ++ "_" ++ v) (B ++ "_" ++ v) val
      (Ne.symm (append_ne_of_ne v hAB))]
  · intro ufs A B args g fname body hparse hkey
    unfold script_function script_call
    rw [hparse]
    dsimp only
    rw [lookupD_setD_ne ufs (A ++ "_" ++ fname) (B ++ "_" ++ g)
      (parseStmts body) (Ne.symm hkey)]

/-- Witness for C8: bob's read of `x` is unaffected by alice's write. -/
theorem C8_actor_scoping_witness :
    script_get (script_set [] "alice" ("x" ++ " " ++ "1")) "bob" "x"
      = script_get [] "bob" "x" :=
  C8_actor_scoping.1 [] "alice" "bob" "x" "1" (by decide) (by decide)

/-- C8 counterexample: the per-actor subroutine table is keyed by the
string `actor ++ "_" ++ name`, so actor `a` defining `b_c` makes the
subroutine invocable by the distinct actor `a_b` under the name `c`. -/
theorem C8_counterexample :
    ("a" : String) ≠ "a_b" ∧
    script_call [] "a_b" "c" = none ∧
    script_call (script_function [] "a" "b_c \x7b say hi \x7d") "a_b" "c"
      = some [("say", "hi")] := by decide

/-- C9 counterexample: an item name containing the separator `" to "` has
no `in` clause, yet `put gold to bob` degrades to the `give_to` parse and
returns a usage message, while `drop gold to bob` runs the drop handler —
the two responses differ. -/
theorem C9_counterexample :
    handle_put_cmd w0 "alice" ["gold", "to", "bob"]
      = ("Usage: put <item> [in <container>]", w0) ∧
    handle_drop_item w0 "alice" (joinSep " " ["gold", "to", "bob"])
      = ("You don't have 'gold to bob'.", w0) ∧
    handle_put_cmd w0 "alice" ["gold", "to", "bob"]
      ≠ handle_drop_item w0 "alice" (joinSep " " ["gold", "to", "bob"]) := by
  decide

/-- C9 (amended): whenever the joined argument string contains neither
`" in "` nor `" to "`, is nonempty and is already stripped, `put` is the
very same call as `drop` — identical response text and identical resulting
state. -/
theorem C9_put_simple_is_drop (s : ServerState) (uname : String)
    (args : List String)
    (h1 : containsSub (joinSep " " args) " in " = false)
    (h2 : containsSub (joinSep " " args) " to " = false)
    (h3 : args ≠ [])
    (h4 : strStrip (joinSep " " args) = joinSep " " args) :
    handle_put_cmd s uname args = handle_drop_item s uname (joinSep " " args) := by
  unfold handle_put_cmd parse_complex_command
  have hs1 : splitFirst (joinSep " " args) " in " = none := by
    unfold containsSub at h1
    unfold splitFirst
    cases hfs : findSub (" in ").data (joinSep " " args).data with
    | none => rfl
    | some q => rw [hfs] at h1; simp at h1
  have hs2 : splitFirst (joinSep " " args) " to " = none := by
    unfold containsSub at h2
    unfold splitFirst
    cases hfs : findSub (" to ").data (joinSep " " args).data with
    | none => rfl
    | some q => rw [hfs] at h2; simp at h2
  have hne : (!args.isEmpty) = true := by
    cases args with
    | nil => exact absurd rfl h3
    | cons a l => rfl
  simp only [hs1, hs2, hne, h4]
  rfl

/-- Witness for C9: `put gold coin` runs exactly `drop gold coin`. -/
theorem C9_put_simple_is_drop_witness :
    handle_put_cmd w0 "alice" ["gold", "coin"]
      = handle_drop_item w0 "alice" (joinSep " " ["gold", "coin"]) :=
  C9_put_simple_is_drop w0 "alice" ["gold", "coin"]
    (by decide) (by decide) (by decide) (by decide)

/-- C10: an item lying directly in the room whose tags contain
`immovable` is refused with the too-heavy message and nothing changes
(when no open container shadows its name); an item found inside an open
container of the room is transferred unconditionally — its tags are never
inspected. -/
theorem C10_immovable_room_items_only (s : ServerState)
    (uname iname : String) (u : WebUser) (room : Room)
    (hu : lookupD s.web_users uname = some u)
    (hr : lookupD s.rooms u.room_id = some room) :
    (∀ item_id it,
      findContainerTake s.items room.items iname = none →
      findItemIn s.items room.items iname = some (item_id, it) →
      it.tags.contains "immovable" = true →
      handle_get_item s uname iname
        = (s!"The {it.name} is too heavy to move.", s)) ∧
    (∀ cid c content_id cit,
      findContainerTake s.items room.items iname
          = some (cid, c, content_id, cit) →
      handle_get_item s uname iname
        = (s!"You take {cit.name} from {c.name}.",
           { s with
             items := updateD s.items cid
               (fun i => { i with contents := i.contents.erase content_id }),
             web_users := updateD s.web_users uname
               (fun w => { w with inventory := w.inventory ++ [content_id] }) })) := by
  constructor
  · intro item_id it hct hfi htag
    unfold handle_get_item
    rw [hu]; dsimp only
    rw [hr]; dsimp only
    rw [hct]; dsimp only
    rw [hfi]; dsimp only
    rw [if_pos htag]
  · intro cid c content_id cit hct
    unfold handle_get_item
    rw [hu]; dsimp only
    rw [hr]; dsimp only
    rw [hct]

/-- Witness for C10: in `w0` the statue refuses to be picked up. -/
theorem C10_immovable_room_items_only_witness :
    handle_get_item w0 "alice" "Statue"
      = ("The Statue is too heavy to move.", w0) :=
  (C10_immovable_room_items_only w0 "alice" "Statue"
    { name := "alice", room_id := "lobby" }
    { id := "lobby", exits := [("north", "garden")],
      items := ["coin1", "chest1", "statue1"], users := ["alice", "bob"] }
    (by decide) (by decide)).1 "statue1"
    { id := "statue1", name := "Statue",
      description := "A heavy stone statue.", tags := ["immovable"] }
    (by decide) (by decide) (by decide)

end TextSpace
